import Mathlib

/-!
Shallow embedding of the core of `db_meter` (src/src/main.rs): the
moving-average smoothing buffer, the stateless sample-to-level processing
(RMS, dB, percentage normalization), and the stateful metering state machine
(min/max/current level, trend, previous-level bookkeeping) together with the
display arithmetic that consumes the level.

Modelling conventions:
- Rust `f32` values are modelled as elements of a linear ordered field
  (instantiated at `ℚ` where the claims are pure field arithmetic, so that
  everything is computable and decidable, and at `ℝ` where `sqrt`/`log10`
  are involved).  Where a claim hinges on `f32` NaN behaviour, the input is
  modelled as `Option ℝ` with `none` standing for NaN.
- `VecDeque<f32>` is modelled as `List`; `pop_front` on an empty deque is a
  no-op, matching `List.tail [] = []`; `push_back` is append.
- `Instant`/wall-clock fields (`start_time`, elapsed time) and the terminal
  printing side effects are I/O and are not part of the embedding; the state
  mutation performed by `display_vu_meter` (writing `prev_moving_avg`) is.
-/

namespace DbMeter

/-- The moving-average window (struct `MovingAverage` in main.rs):
a FIFO window of samples plus its configured capacity `size`. -/
structure MovingAverage (α : Type) where
  window : List α
  size : Nat
  deriving DecidableEq

/-- Embeds `MovingAverage::new`: constructs an empty window with the given
`size`.  Note the source performs no validation of `size` and has no error
path (`fn new(size: usize) -> Self`). -/
def MovingAverage.new (α : Type) (size : Nat) : MovingAverage α :=
  { window := [], size := size }

/-- Embeds `MovingAverage::add`: if the window is full (`len == size`) pop
the oldest element, push the new value at the back, and return the window
together with the mean `sum / len` over the current contents. -/
def MovingAverage.add {α : Type} [DivisionRing α] (m : MovingAverage α)
    (value : α) : MovingAverage α × α :=
  let popped := if m.window.length = m.size then m.window.tail else m.window
  let w := popped ++ [value]
  ({ window := w, size := m.size }, w.sum / (w.length : α))

/-- Modelled from the spec (section 4.2), for refinement comparison with
`MovingAverage.add`: append the value; if the sequence length would exceed
`size`, evict the oldest element first; return the mean over the current
length. -/
def MovingAverage.addSpec {α : Type} [DivisionRing α] (m : MovingAverage α)
    (value : α) : MovingAverage α × α :=
  let popped := if m.size < m.window.length + 1 then m.window.tail else m.window
  let w := popped ++ [value]
  ({ window := w, size := m.size }, w.sum / (w.length : α))

/-- Folds a sequence of `add` calls, keeping the state. -/
def MovingAverage.addAll {α : Type} [DivisionRing α] (m : MovingAverage α)
    (values : List α) : MovingAverage α :=
  values.foldl (fun acc v => (acc.add v).1) m

/-- Folds a sequence of `add` calls, collecting the returned means. -/
def MovingAverage.addResults {α : Type} [DivisionRing α] (m : MovingAverage α) :
    List α → List α
  | [] => []
  | v :: vs =>
    let r := m.add v
    r.2 :: r.1.addResults vs

/-- The trend indicator returned by `AudioStream::calculate_trend`:
`up` is the source's arrow-up string, `down` arrow-down, `flat` the
straight arrow returned in the default branch. -/
inductive Trend where
  | up
  | down
  | flat
  deriving DecidableEq

/-- Embeds the metering state of struct `AudioStream` in main.rs.  The
`processor` field (a zero-sized struct) and `start_time` (wall clock) carry
no state relevant to the level computations and are omitted. -/
structure AudioStream (α : Type) where
  meter_width : Nat
  moving_average : MovingAverage α
  use_moving_average : Bool
  min_level : α
  max_level : α
  current_level : α
  alert_threshold : α
  prev_moving_avg : Option α
  deriving DecidableEq

/-- The exact integer value of Rust `f32::MAX`, `(2 - 2^-23) * 2^127`. -/
def f32MAX (α : Type) [DivisionRing α] : α :=
  340282346638528859811704183484516925440

/-- Embeds `impl Default for AudioStream`: `min_level = f32::MAX`,
`max_level = f32::MIN = -f32::MAX`, `current_level = 0`, width 100,
moving average of size 10 in use, threshold 80, no previous level. -/
def AudioStream.default (α : Type) [DivisionRing α] : AudioStream α :=
  { meter_width := 100
    moving_average := MovingAverage.new α 10
    use_moving_average := true
    min_level := f32MAX α
    max_level := -(f32MAX α)
    current_level := 0
    alert_threshold := 80
    prev_moving_avg := none }

/-- Embeds `AudioStream::update_levels`: store the level as current, lower
`min_level` if the level is strictly below it, raise `max_level` if the
level is strictly above it. -/
def AudioStream.update_levels {α : Type} [LinearOrder α] (s : AudioStream α)
    (level : α) : AudioStream α :=
  { s with
    current_level := level
    min_level := if level < s.min_level then level else s.min_level
    max_level := if s.max_level < level then level else s.max_level }

/-- Embeds `AudioStream::calculate_trend`: compare `current_level` against
`prev_moving_avg`; strictly greater is `up`, strictly less is `down`,
everything else (equal, or no previous value) is `flat`. -/
def AudioStream.calculate_trend {α : Type} [LinearOrder α]
    (s : AudioStream α) : Trend :=
  match s.prev_moving_avg with
  | some prev =>
    if prev < s.current_level then Trend.up
    else if s.current_level < prev then Trend.down
    else Trend.flat
  | none => Trend.flat

/-- Embeds one per-buffer update of the metering state, taking the already
final (possibly smoothed) level: `update_levels` followed by the state
effects of `display_vu_meter`, which computes the trend from the updated
state and only afterwards writes `prev_moving_avg = Some(level)`. -/
def AudioStream.process_level {α : Type} [LinearOrder α] (s : AudioStream α)
    (level : α) : AudioStream α × Trend :=
  let s1 := s.update_levels level
  let t := s1.calculate_trend
  ({ s1 with prev_moving_avg := some level }, t)

/-- Folds a sequence of per-buffer updates, keeping the state. -/
def AudioStream.runLevels {α : Type} [LinearOrder α] (s : AudioStream α)
    (levels : List α) : AudioStream α :=
  levels.foldl (fun acc l => (acc.process_level l).1) s

/-- Folds a sequence of per-buffer updates, collecting the trend reported
at each update. -/
def AudioStream.runTrends {α : Type} [LinearOrder α] (s : AudioStream α) :
    List α → List Trend
  | [] => []
  | l :: ls =>
    let r := s.process_level l
    r.2 :: r.1.runTrends ls

/-- The comparison the spec describes for one trend report: current level
against the previous call's level, `flat` when there is none. -/
def cmpTrend {α : Type} [LinearOrder α] (cur : α) (prev : Option α) : Trend :=
  match prev with
  | none => Trend.flat
  | some p => if p < cur then Trend.up else if cur < p then Trend.down
              else Trend.flat

/-- Embeds `AudioProcessor::calculate_rms` (trait `SoundProcessor`): the
square root of the sum of squared samples divided by the sample count.
There is no emptiness check in the source; on an empty slice the Rust code
divides `0.0` by `0.0`. -/
noncomputable def calculate_rms (samples : List ℝ) : ℝ :=
  let sum_of_squares := (samples.map (fun sample => sample * sample)).sum
  Real.sqrt (sum_of_squares / (samples.length : ℝ))

/-- Embeds `AudioProcessor::calculate_db`: `20 * log10(max(rms, 1e-10))`. -/
noncomputable def calculate_db (rms : ℝ) : ℝ :=
  20 * Real.logb 10 (max rms 1e-10)

/-- Rust `f32::max` on a possibly-NaN left operand (`none` models NaN):
`f32::max` ignores a NaN operand and returns the other one. -/
def f32max_nan (x : Option ℝ) (y : ℝ) : ℝ :=
  match x with
  | none => y
  | some v => max v y

/-- Embeds `AudioProcessor::calculate_db` on the full `f32` input domain,
with NaN modelled as `none`: `20 * log10(rms.max(1e-10))` where the `max`
follows Rust NaN semantics. -/
noncomputable def calculate_db_f32 (rms : Option ℝ) : ℝ :=
  20 * Real.logb 10 (f32max_nan rms 1e-10)

/-- Embeds `AudioProcessor::normalize_db_to_0_100`: linear remap with
`min_db = -100`, `max_db = 0`, namely `((db - min_db) / (max_db - min_db)) * 100`. -/
def normalize_db_to_0_100 {α : Type} [DivisionRing α] (db : α) : α :=
  let min_db : α := -100
  let max_db : α := 0
  ((db - min_db) / (max_db - min_db)) * 100

/-- Embeds the body of the audio input callback in `AudioStream::run`:
RMS, dB, normalization, optional moving-average smoothing, `update_levels`,
then `display_vu_meter` (whose state effect is recording the level as
`prev_moving_avg` after the trend is computed).  The callback has no error
path and returns nothing; printing is I/O and not part of the state. -/
noncomputable def AudioStream.callback_body (s : AudioStream ℝ)
    (data : List ℝ) : AudioStream ℝ :=
  let rms := calculate_rms data
  let db := calculate_db rms
  let normalized_level := normalize_db_to_0_100 db
  let smoothed := s.moving_average.add normalized_level
  let final_level := if s.use_moving_average then smoothed.2 else normalized_level
  let s1 := { s with moving_average :=
                if s.use_moving_average then smoothed.1 else s.moving_average }
  (s1.process_level final_level).1

/-- Rust `f32::round` (half away from zero), on exact rationals. -/
def rustRound (x : ℚ) : ℤ :=
  if 0 ≤ x then ⌊x + 1 / 2⌋ else -⌊-x + 1 / 2⌋

/-- Embeds the `filled_length` computation of `AudioStream::display_vu_meter`:
`(level / 100.0 * meter_width as f32).round() as usize`.  The `as usize`
cast saturates negative values to `0`, which `Int.toNat` matches. -/
def filled_length (level : ℚ) (meter_width : Nat) : Nat :=
  (rustRound (level / 100 * (meter_width : ℚ))).toNat

/-- Embeds the `empty_length` computation of `AudioStream::display_vu_meter`,
`meter_width - filled_length`, as a checked `usize` subtraction: `none`
models the arithmetic-underflow panic when `filled_length > meter_width`. -/
def empty_length (level : ℚ) (meter_width : Nat) : Option Nat :=
  if filled_length level meter_width ≤ meter_width then
    some (meter_width - filled_length level meter_width)
  else none

/-! Helper lemmas about the embedded operations. -/

/-- The normalization is an affine shift: `((db + 100) / 100) * 100 = db + 100`. -/
lemma normalize_eq {α : Type} [Field α] [CharZero α] (db : α) :
    normalize_db_to_0_100 db = db + 100 := by
  unfold normalize_db_to_0_100
  have h : (100 : α) ≠ 0 := by norm_num
  field_simp

/-- The trend reported by one `process_level` step compares the incoming
level against the previous call's stored level. -/
lemma process_level_snd (s : AudioStream ℚ) (l : ℚ) :
    (s.process_level l).2 = cmpTrend l s.prev_moving_avg := by
  cases h : s.prev_moving_avg <;>
    simp [AudioStream.process_level, AudioStream.update_levels,
      AudioStream.calculate_trend, cmpTrend, h]

/-- One `process_level` step stores the incoming level as the previous level. -/
lemma process_level_prev (s : AudioStream ℚ) (l : ℚ) :
    ((s.process_level l).1).prev_moving_avg = some l := rfl

/-- The `min_level` written by one step, explicitly. -/
lemma process_level_min (s : AudioStream ℚ) (l : ℚ) :
    ((s.process_level l).1).min_level =
      if l < s.min_level then l else s.min_level := rfl

/-- The `max_level` written by one step, explicitly. -/
lemma process_level_max (s : AudioStream ℚ) (l : ℚ) :
    ((s.process_level l).1).max_level =
      if s.max_level < l then l else s.max_level := rfl

/-- The `current_level` written by one step is the incoming level. -/
lemma process_level_current (s : AudioStream ℚ) (l : ℚ) :
    ((s.process_level l).1).current_level = l := rfl

/-- One step never raises `min_level`. -/
lemma step_min_le (s : AudioStream ℚ) (l : ℚ) :
    ((s.process_level l).1).min_level ≤ s.min_level := by
  rw [process_level_min]
  split_ifs with h
  · exact h.le
  · exact le_rfl

/-- One step never lowers `max_level`. -/
lemma step_max_ge (s : AudioStream ℚ) (l : ℚ) :
    s.max_level ≤ ((s.process_level l).1).max_level := by
  rw [process_level_max]
  split_ifs with h
  · exact h.le
  · exact le_rfl

/-- After one step, `min_level` is at most the current level. -/
lemma step_min_le_current (s : AudioStream ℚ) (l : ℚ) :
    ((s.process_level l).1).min_level ≤ ((s.process_level l).1).current_level := by
  rw [process_level_min, process_level_current]
  split_ifs with h
  · exact le_rfl
  · exact not_lt.mp h

/-- After one step, the current level is at most `max_level`. -/
lemma step_current_le_max (s : AudioStream ℚ) (l : ℚ) :
    ((s.process_level l).1).current_level ≤ ((s.process_level l).1).max_level := by
  rw [process_level_current, process_level_max]
  split_ifs with h
  · exact le_rfl
  · exact not_lt.mp h

/-- Trend reports across a run compare each level against its predecessor
(the initial comparison partner being the state's stored previous level). -/
lemma runTrends_eq (ls : List ℚ) : ∀ s : AudioStream ℚ,
    s.runTrends ls = List.zipWith cmpTrend ls (s.prev_moving_avg :: ls.map some) := by
  induction ls with
  | nil => intro s; rfl
  | cons l ls ih =>
    intro s
    show (s.process_level l).2 :: ((s.process_level l).1).runTrends ls = _
    rw [process_level_snd, ih ((s.process_level l).1), process_level_prev]
    rfl

/-- Across a run, `min_level` never increases. -/
lemma runLevels_min_le (ls : List ℚ) : ∀ s : AudioStream ℚ,
    (s.runLevels ls).min_level ≤ s.min_level := by
  induction ls with
  | nil => intro s; exact le_rfl
  | cons l ls ih =>
    intro s
    exact le_trans (ih ((s.process_level l).1)) (step_min_le s l)

/-- Across a run, `max_level` never decreases. -/
lemma runLevels_max_ge (ls : List ℚ) : ∀ s : AudioStream ℚ,
    s.max_level ≤ (s.runLevels ls).max_level := by
  induction ls with
  | nil => intro s; exact le_rfl
  | cons l ls ih =>
    intro s
    exact le_trans (step_max_ge s l) (ih ((s.process_level l).1))

/-- After a nonempty run, `min_level ≤ current_level ≤ max_level`. -/
lemma runLevels_inv (ls : List ℚ) : ∀ s : AudioStream ℚ, ls ≠ [] →
    (s.runLevels ls).min_level ≤ (s.runLevels ls).current_level ∧
    (s.runLevels ls).current_level ≤ (s.runLevels ls).max_level := by
  induction ls with
  | nil => intro s h; exact absurd rfl h
  | cons l ls ih =>
    intro s _
    cases ls with
    | nil => exact ⟨step_min_le_current s l, step_current_le_max s l⟩
    | cons l2 ls2 => exact ih ((s.process_level l).1) (by simp)

/-- One `add` call preserves the window-length bound and the size field. -/
lemma add_length_le (m : MovingAverage ℚ) (v : ℚ) (h1 : 1 ≤ m.size)
    (h2 : m.window.length ≤ m.size) :
    ((m.add v).1).window.length ≤ m.size ∧ ((m.add v).1).size = m.size := by
  refine ⟨?_, rfl⟩
  show ((if m.window.length = m.size then m.window.tail else m.window) ++ [v]).length ≤ m.size
  split_ifs with h
  · simp only [List.length_append, List.length_tail, List.length_singleton]
    omega
  · simp only [List.length_append, List.length_singleton]
    omega

/-- A sequence of `add` calls preserves the window-length bound and the
size field. -/
lemma addAll_inv (vs : List ℚ) : ∀ m : MovingAverage ℚ, 1 ≤ m.size →
    m.window.length ≤ m.size →
    ((m.addAll vs).window.length ≤ m.size ∧ (m.addAll vs).size = m.size) := by
  induction vs with
  | nil => intro m _ h2; exact ⟨h2, rfl⟩
  | cons v vs ih =>
    intro m h1 h2
    have hstep := add_length_le m v h1 h2
    have := ih ((m.add v).1) (by rw [hstep.2]; exact h1) (by rw [hstep.2]; exact hstep.1)
    exact ⟨by rw [← hstep.2]; exact this.1, by rw [← hstep.2]; exact this.2⟩

/-- The audio callback always records the processed level as the previous
level: its last state effect is `prev_moving_avg = Some(final_level)`. -/
lemma callback_body_prev (s : AudioStream ℝ) (data : List ℝ) :
    (s.callback_body data).prev_moving_avg =
      some (if s.use_moving_average then
              (s.moving_average.add (normalize_db_to_0_100
                (calculate_db (calculate_rms data)))).2
            else normalize_db_to_0_100 (calculate_db (calculate_rms data))) := rfl

/-- The literal `1e-10` is the inverse of `10^10`. -/
lemma em10_eq : (1e-10 : ℝ) = ((10 : ℝ) ^ (10 : ℕ))⁻¹ := by norm_num

/-- The base-10 logarithm of the silence floor `1e-10` is `-10`. -/
lemma logb_ten_em10 : Real.logb 10 (1e-10 : ℝ) = -10 := by
  have h10 : Real.log 10 ≠ 0 := ne_of_gt (Real.log_pos (by norm_num))
  rw [em10_eq, ← Real.log_div_log, Real.log_inv, Real.log_pow]
  field_simp

/-! The claims. -/

/-- C1, counterexample: the audio-callback body, called on the empty sample
sequence from the default state, does not leave the state unmodified (and
returns no error: it is a total function into states). -/
theorem claim_C1_counterexample :
    (AudioStream.default ℝ).callback_body [] ≠ AudioStream.default ℝ := by
  intro h
  have h2 := congrArg AudioStream.prev_moving_avg h
  rw [callback_body_prev] at h2
  exact Option.some_ne_none _ h2

/-- C1 (amended): the audio-callback body has no empty-input check and no
error path; called with an empty sample sequence it still runs the whole
pipeline and modifies the meter state: `prev_moving_avg` is set to the
computed level, so the state is not left unmodified. -/
theorem claim_C1 (s : AudioStream ℝ) (h : s.prev_moving_avg = none) :
    s.callback_body [] ≠ s ∧
    ∃ x, (s.callback_body []).prev_moving_avg = some x := by
  constructor
  · intro heq
    have h2 := congrArg AudioStream.prev_moving_avg heq
    rw [callback_body_prev, h] at h2
    exact Option.some_ne_none _ h2
  · exact ⟨_, callback_body_prev s []⟩

/-- C1, witness: the amended claim instantiated at the default state. -/
theorem claim_C1_witness :
    (AudioStream.default ℝ).callback_body [] ≠ AudioStream.default ℝ ∧
    ∃ x, ((AudioStream.default ℝ).callback_body []).prev_moving_avg = some x :=
  claim_C1 (AudioStream.default ℝ) rfl

/-- C2, counterexample: `MovingAverage::new` called with size 0 does not
fail: it returns a fully formed `MovingAverage` with an empty window and
size 0, on which `add` operates normally. -/
theorem claim_C2_counterexample :
    MovingAverage.new ℚ 0 = { window := [], size := 0 } ∧
    (((MovingAverage.new ℚ 0).add 1).1).window.length = 1 := by
  constructor
  · rfl
  · simp [MovingAverage.new, MovingAverage.add]

/-- C2 (amended): `MovingAverage::new` performs no validation and has no
error path: construction succeeds for every size, including 0, returning
an empty window with the requested size. -/
theorem claim_C2 (size : Nat) :
    MovingAverage.new ℚ size = { window := [], size := size } := rfl

/-- C3: across any run started with no stored previous level, the trend of
update n is the strict comparison of the level of update n against the
level of update n-1 (`flat` at the first update), i.e. the comparison is
always against the prior call's level, never the current one. -/
theorem claim_C3 (s : AudioStream ℚ) (h : s.prev_moving_avg = none)
    (ls : List ℚ) :
    s.runTrends ls = List.zipWith cmpTrend ls (none :: ls.map some) := by
  rw [runTrends_eq ls s, h]

/-- C3, witness: from the default state, levels 50, 70, 70, 60 report
flat, up, flat, down. -/
theorem claim_C3_witness :
    (AudioStream.default ℚ).runTrends [50, 70, 70, 60] =
      [Trend.flat, Trend.up, Trend.flat, Trend.down] := by
  rw [claim_C3 (AudioStream.default ℚ) rfl [50, 70, 70, 60]]
  norm_num [cmpTrend, List.zipWith]

/-- C4: with the window invariant in force (size at least 1, window not
over capacity), `add` behaves exactly as the spec describes (append, FIFO
eviction when the length would exceed the size, mean over the current
length), and the concrete size-3 run on 2, 4, 6, 8 returns 2, 3, 4, 6. -/
theorem claim_C4 (m : MovingAverage ℚ) (v : ℚ) (h1 : 1 ≤ m.size)
    (h2 : m.window.length ≤ m.size) :
    m.add v = m.addSpec v ∧
    (m.add v).2 =
      ((m.add v).1).window.sum / (((m.add v).1).window.length : ℚ) ∧
    MovingAverage.addResults (MovingAverage.new ℚ 3) [2, 4, 6, 8] =
      [2, 3, 4, 6] := by
  refine ⟨?_, rfl, ?_⟩
  · have hc : (m.window.length = m.size) ↔ (m.size < m.window.length + 1) := by
      omega
    simp only [MovingAverage.add, MovingAverage.addSpec]
    rw [if_congr hc rfl rfl]
  · simp [MovingAverage.addResults, MovingAverage.add, MovingAverage.new]
    norm_num

/-- C4, witness: the claim instantiated at a fresh size-3 window and the
value 5. -/
theorem claim_C4_witness :
    (MovingAverage.new ℚ 3).add 5 = (MovingAverage.new ℚ 3).addSpec 5 ∧
    ((MovingAverage.new ℚ 3).add 5).2 =
      (((MovingAverage.new ℚ 3).add 5).1).window.sum /
        ((((MovingAverage.new ℚ 3).add 5).1).window.length : ℚ) ∧
    MovingAverage.addResults (MovingAverage.new ℚ 3) [2, 4, 6, 8] =
      [2, 3, 4, 6] :=
  claim_C4 (MovingAverage.new ℚ 3) 5 (by decide) (by decide)

/-- C5: across any run, `min_level` is monotonically non-increasing and
`max_level` monotonically non-decreasing, and after at least one update
`min_level ≤ current_level ≤ max_level`. -/
theorem claim_C5 (s : AudioStream ℚ) (ls : List ℚ) :
    (s.runLevels ls).min_level ≤ s.min_level ∧
    s.max_level ≤ (s.runLevels ls).max_level ∧
    (ls ≠ [] →
      (s.runLevels ls).min_level ≤ (s.runLevels ls).current_level ∧
      (s.runLevels ls).current_level ≤ (s.runLevels ls).max_level) :=
  ⟨runLevels_min_le ls s, runLevels_max_ge ls s, runLevels_inv ls s⟩

/-- C5, witness: the claim instantiated at the default state and the
one-element level sequence 5. -/
theorem claim_C5_witness :
    ((AudioStream.default ℚ).runLevels [5]).min_level ≤
      (AudioStream.default ℚ).min_level ∧
    (AudioStream.default ℚ).max_level ≤
      ((AudioStream.default ℚ).runLevels [5]).max_level ∧
    ((AudioStream.default ℚ).runLevels [5]).min_level ≤
      ((AudioStream.default ℚ).runLevels [5]).current_level ∧
    ((AudioStream.default ℚ).runLevels [5]).current_level ≤
      ((AudioStream.default ℚ).runLevels [5]).max_level := by
  have h := claim_C5 (AudioStream.default ℚ) [5]
  exact ⟨h.1, h.2.1, h.2.2 (by simp)⟩

/-- C6: the normalization is exactly the linear remap
`((db - (-100)) / (0 - (-100))) * 100` with no clamping: above 0 dB the
result exceeds 100, below -100 dB it is negative. -/
theorem claim_C6 (db : ℚ) :
    normalize_db_to_0_100 db = ((db - (-100)) / (0 - (-100))) * 100 ∧
    (0 < db → 100 < normalize_db_to_0_100 db) ∧
    (db < -100 → normalize_db_to_0_100 db < 0) := by
  refine ⟨rfl, ?_, ?_⟩ <;> intro h <;> rw [normalize_eq] <;> linarith

/-- C6, witness: 101 dB normalizes above 100 and -101 dB below 0. -/
theorem claim_C6_witness :
    100 < normalize_db_to_0_100 (101 : ℚ) ∧
    normalize_db_to_0_100 (-101 : ℚ) < 0 :=
  ⟨(claim_C6 101).2.1 (by norm_num), (claim_C6 (-101)).2.2 (by norm_num)⟩

/-- C7: on a non-empty all-zero buffer the RMS is 0, the dB value is
exactly -200, and its normalization is exactly -100 (not clamped to 0). -/
theorem claim_C7 (samples : List ℝ) (h1 : samples ≠ [])
    (h2 : ∀ x ∈ samples, x = 0) :
    calculate_rms samples = 0 ∧
    calculate_db (calculate_rms samples) = -200 ∧
    normalize_db_to_0_100 (calculate_db (calculate_rms samples)) = -100 := by
  have hr : calculate_rms samples = 0 := by
    unfold calculate_rms
    have hs : (samples.map (fun sample => sample * sample)).sum = 0 := by
      apply List.sum_eq_zero
      intro y hy
      rcases List.mem_map.mp hy with ⟨x, hx, hxy⟩
      rw [← hxy, h2 x hx, mul_zero]
    simp [hs]
  have hd : calculate_db 0 = -200 := by
    unfold calculate_db
    rw [max_eq_right (by norm_num : (0 : ℝ) ≤ 1e-10), logb_ten_em10]
    norm_num
  refine ⟨hr, ?_, ?_⟩
  · rw [hr]
    exact hd
  · rw [hr, hd, normalize_eq]
    norm_num

/-- C7, witness: the claim instantiated at the buffer of two zero samples. -/
theorem claim_C7_witness :
    calculate_rms [0, 0] = 0 ∧
    calculate_db (calculate_rms [0, 0]) = -200 ∧
    normalize_db_to_0_100 (calculate_db (calculate_rms [0, 0])) = -100 :=
  claim_C7 [0, 0] (by simp) (by intro x hx; simpa using hx)

/-- C8: for every window constructed with size at least 1, after any
sequence of `add` calls the window length never exceeds the size. -/
theorem claim_C8 (size : Nat) (h : 1 ≤ size) (vs : List ℚ) :
    ((MovingAverage.new ℚ size).addAll vs).window.length ≤ size :=
  (addAll_inv vs (MovingAverage.new ℚ size) h (by simp [MovingAverage.new])).1

/-- C8, witness: the claim instantiated at size 3 and four added values. -/
theorem claim_C8_witness :
    ((MovingAverage.new ℚ 3).addAll [1, 2, 3, 4]).window.length ≤ 3 :=
  claim_C8 3 (by decide) [1, 2, 3, 4]

/-- C9: with `f32` and its NaN modelled as `Option ℝ` (`none` is NaN,
on which Rust `f32::max` returns the other operand), the dB computation is
total, its log argument is at least the `1e-10` floor, its result is at
least -200, and the downstream normalized percentage is at least -100. -/
theorem claim_C9 (rms : Option ℝ) :
    (1e-10 : ℝ) ≤ f32max_nan rms 1e-10 ∧
    -200 ≤ calculate_db_f32 rms ∧
    -100 ≤ normalize_db_to_0_100 (calculate_db_f32 rms) := by
  have hmax : (1e-10 : ℝ) ≤ f32max_nan rms 1e-10 := by
    cases rms with
    | none => exact le_rfl
    | some v => exact le_max_right v _
  have hlog : (-10 : ℝ) ≤ Real.logb 10 (f32max_nan rms 1e-10) := by
    have h := Real.logb_le_logb_of_le (by norm_num : (1 : ℝ) < 10)
      (by norm_num : (0 : ℝ) < 1e-10) hmax
    rwa [logb_ten_em10] at h
  have hdb : (-200 : ℝ) ≤ calculate_db_f32 rms := by
    unfold calculate_db_f32
    linarith
  refine ⟨hmax, hdb, ?_⟩
  rw [normalize_eq]
  linarith

/-- C10: a level above 100 is reachable (positive dB normalizes above 100,
unclamped), and at such a level the display arithmetic overflows its width:
at the default meter width 100, level 200 fills 200 columns and the usize
subtraction producing `empty_length` underflows (`none`, the panic). -/
theorem claim_C10 :
    ∃ db level : ℚ, 0 < db ∧ normalize_db_to_0_100 db = level ∧ 100 < level ∧
      (AudioStream.default ℚ).meter_width <
        filled_length level (AudioStream.default ℚ).meter_width ∧
      empty_length level (AudioStream.default ℚ).meter_width = none := by
  refine ⟨100, 200, by norm_num, by rw [normalize_eq]; norm_num, by norm_num,
    ?_, ?_⟩
  · show (100 : Nat) < filled_length 200 100
    simp [filled_length, rustRound]
    norm_num [Int.floor_eq_iff]
  · show empty_length 200 100 = none
    simp [empty_length, filled_length, rustRound]
    norm_num [Int.floor_eq_iff]

end DbMeter
